import Mathlib

/-
Shallow embedding of the command execution pipeline of the THORUS terminal
repository: the async command manager (src/core/command_manager.py), the
Tank handler (src/core/computer_use_tank.py) and the Claude controller
(src/core/computer_use_providers/computer_use_tank/claude.py).

Modelling conventions:
- Python exceptions are values of PyExc; a function that can raise returns
  an `Option PyExc` (raised) or `Except PyExc A` next to its result state.
  In the Python version used by the repository (StrEnum requires 3.11+),
  asyncio.CancelledError derives from BaseException, not Exception, so an
  `except Exception` clause does not catch it; PyExc.isException records
  which exceptions an `except Exception` clause catches.
- Python float arithmetic is modelled with exact rationals; Python int()
  truncation toward zero is `pytrunc`.
- Wall clock durations are opaque rational parameters.
- The remote model is an environment parameter: a script listing, per
  request, either the returned content blocks or a raised transport error.
  The outcome of each requested tool execution is likewise attached to the
  scripted tool use block, since the OS boundary is external.
-/

namespace Thorus

/-- Python exception values relevant to the embedded code paths. -/
inductive PyExc
  | cancelledError (msg : String)
  | valueError (msg : String)
  | runtimeError (msg : String)
deriving DecidableEq, Repr

/-- Whether an `except Exception` clause catches the exception: on Python
3.11 asyncio.CancelledError derives from BaseException only. -/
def PyExc.isException : PyExc → Bool
  | .cancelledError _ => false
  | _ => true

/-- Python int() applied to an exact rational: truncation toward zero. -/
def pytrunc (q : ℚ) : ℤ := if q < 0 then ⌈q⌉ else ⌊q⌋

/-- The characters removed by Python str.strip() on ASCII text. -/
def pyIsSpace (c : Char) : Bool :=
  c = ' ' || c = '\t' || c = '\n' || c = '\x0d' || c = '\x0b' || c = '\x0c'

/-- Python str.strip() with no argument, on the character list of a string. -/
def pyStripList (l : List Char) : List Char :=
  (((l.dropWhile pyIsSpace).reverse).dropWhile pyIsSpace).reverse

/-- Python str.strip() with no argument. -/
def pyStrip (s : String) : String := ⟨pyStripList s.data⟩

/-- Python str.lower() on ASCII text. -/
def pyLower (s : String) : String := ⟨s.data.map Char.toLower⟩

/-- Python substring membership `needle in hay` on character lists. -/
def listContainsSub (hay needle : List Char) : Bool :=
  needle.isPrefixOf hay ||
    match hay with
    | [] => false
    | _ :: t => listContainsSub t needle

/-- Python substring membership `needle in hay`. -/
def pyContains (hay needle : String) : Bool := listContainsSub hay.data needle.data

/-
Conversation message model. A message is a role plus a list of content
blocks; a tool_result block carries its own list of result items, which is
where screenshot images live (claude.py builds exactly these shapes).
-/

/-- Role field of a conversation message. -/
inductive Role
  | user
  | assistant
deriving DecidableEq, Repr

/-- An item inside the content list of a tool_result block: an embedded
base64 image (the data string is kept opaque) or plain text. -/
inductive RItem
  | image (data : String)
  | rtext (s : String)
deriving DecidableEq, Repr

/-- A content block of a conversation message, as built by claude.py:
plain text, a tool_use request, or a tool_result with its own items. -/
inductive Item
  | text (s : String)
  | toolUse (id name input : String)
  | toolResult (toolUseId : String) (content : List RItem)
deriving DecidableEq, Repr

/-- A conversation message: role plus content blocks. -/
structure Msg where
  role : Role
  content : List Item
deriving DecidableEq, Repr

/-- Whether a result item is an embedded image. -/
def RItem.isImage : RItem → Bool
  | .image _ => true
  | .rtext _ => false

/-- The image payloads of a tool_result content list, oldest first. -/
def imagesOfR (l : List RItem) : List String :=
  l.filterMap fun c => match c with | .image d => some d | .rtext _ => none

/-- The non-image items of a tool_result content list, in order. -/
def eraseImagesR (l : List RItem) : List RItem := l.filter fun c => !c.isImage

/-- The image payloads inside the tool_result blocks of one message. -/
def imagesOfItems (l : List Item) : List String :=
  l.flatMap fun it => match it with
    | .toolResult _ content => imagesOfR content
    | _ => []

/-- All image payloads embedded in a message list, oldest first, in the
same traversal order used by _maybe_filter_to_n_most_recent_images. -/
def imagesOf (msgs : List Msg) : List String :=
  msgs.flatMap fun m => imagesOfItems m.content

/-- The content blocks of one message with all images removed from its
tool_result blocks. -/
def eraseImagesItems (l : List Item) : List Item :=
  l.map fun it => match it with
    | .toolResult id content => .toolResult id (eraseImagesR content)
    | other => other

/-- Every message with the images of its tool_result blocks removed; used
to state that pruning touches nothing but images. -/
def eraseImages (msgs : List Msg) : List Msg :=
  msgs.map fun m => ⟨m.role, eraseImagesItems m.content⟩

/-- Total number of embedded images, as counted by the filter in
claude.py lines 61-68. -/
def countImages (msgs : List Msg) : Nat := (imagesOf msgs).length

/-- The inner removal loop of _maybe_filter_to_n_most_recent_images over
one tool_result content list (claude.py lines 83-92): each image is
skipped while the removal budget is positive. Returns the new content and
the remaining budget. -/
def removeImagesR (k : Nat) : List RItem → Nat × List RItem
  | [] => (k, [])
  | c :: t =>
    if k > 0 && c.isImage then
      removeImagesR (k - 1) t
    else
      let (k2, t2) := removeImagesR k t
      (k2, c :: t2)

/-- The removal budget threaded through the content blocks of one message
(tool_result blocks only, in order). -/
def removeImagesItems (k : Nat) : List Item → Nat × List Item
  | [] => (k, [])
  | .toolResult id content :: t =>
    let (k2, content2) := removeImagesR k content
    let (k3, t2) := removeImagesItems k2 t
    (k3, .toolResult id content2 :: t2)
  | .text s :: t =>
    let (k2, t2) := removeImagesItems k t
    (k2, .text s :: t2)
  | .toolUse id name input :: t =>
    let (k2, t2) := removeImagesItems k t
    (k2, .toolUse id name input :: t2)

/-- The removal budget threaded through the whole message list, oldest
message first, matching the order in which the Python code collects and
then mutates tool_result blocks. -/
def removeImagesMsgs (k : Nat) : List Msg → Nat × List Msg
  | [] => (k, [])
  | m :: t =>
    let (k2, content2) := removeImagesItems k m.content
    let (k3, t2) := removeImagesMsgs k2 t
    (k3, ⟨m.role, content2⟩ :: t2)

/-- _maybe_filter_to_n_most_recent_images (claude.py lines 38-93):
count the images in tool_result blocks, return the list unchanged when at
most images_to_keep are present, otherwise round the removal amount down
to a multiple of min_removal_threshold and remove that many images oldest
first. A zero threshold would raise ZeroDivisionError in Python; the
callers always use the default threshold 2. -/
def _maybe_filter_to_n_most_recent_images
    (messages : List Msg) (images_to_keep : Nat) (min_removal_threshold : Nat) :
    List Msg :=
  let total_images := countImages messages
  if total_images ≤ images_to_keep then
    messages
  else
    let images_to_remove := total_images - images_to_keep
    let images_to_remove := images_to_remove - images_to_remove % min_removal_threshold
    (removeImagesMsgs images_to_remove messages).2

/-
Coordinate scaling (claude.py lines 116-129 and 278-328).
-/

/-- Mirrors the ScalingSource StrEnum of claude.py. -/
inductive ScalingSource
  | computer
  | api
deriving DecidableEq, Repr

/-- The fields of TankClaudeController read by scale_coordinates: the
scaling configuration plus the detected monitor offset and real screen
size. Dimensions are Python ints. -/
structure ScaleState where
  enabled : Bool
  maintain_aspect : Bool
  offset_x : ℤ
  offset_y : ℤ
  screen_width : ℤ
  screen_height : ℤ
  base_width : ℤ
  base_height : ℤ
deriving DecidableEq, Repr

/-- TankClaudeController.scale_coordinates (claude.py lines 278-328).
Python computes the scale factors in binary floating point; the embedding
uses exact rationals and pytrunc for int(). A zero base or screen
dimension would raise ZeroDivisionError in Python; rational division by
zero returns 0 instead, and the theorems below assume positive
dimensions. -/
def scale_coordinates (st : ScaleState) (source : ScalingSource) (x y : ℤ) :
    ℤ × ℤ :=
  let x := if x < 0 then 0 else x
  let y := if y < 0 then 0 else y
  if !st.enabled then
    match source with
    | .api =>
      let final_x := x + st.offset_x
      let final_y := y + st.offset_y
      let final_x := min (max final_x st.offset_x) (st.offset_x + st.screen_width - 1)
      let final_y := min (max final_y st.offset_y) (st.offset_y + st.screen_height - 1)
      (final_x, final_y)
    | .computer => (x, y)
  else
    let real_w := st.screen_width
    let real_h := st.screen_height
    let base_w := st.base_width
    let base_h := st.base_height
    match source with
    | .api =>
      let scale_x : ℚ := (x : ℚ) / (base_w : ℚ) * (real_w : ℚ)
      let scale_y : ℚ := (y : ℚ) / (base_h : ℚ) * (real_h : ℚ)
      let final_x := pytrunc (scale_x + (st.offset_x : ℚ))
      let final_y := pytrunc (scale_y + (st.offset_y : ℚ))
      let final_x := min (max final_x st.offset_x) (st.offset_x + real_w - 1)
      let final_y := min (max final_y st.offset_y) (st.offset_y + real_h - 1)
      (final_x, final_y)
    | .computer =>
      let rx := x - st.offset_x
      let ry := y - st.offset_y
      let rx := if rx < 0 then 0 else rx
      let ry := if ry < 0 then 0 else ry
      let rx := if rx > real_w then real_w else rx
      let ry := if ry > real_h then real_h else ry
      let scaled_x : ℚ := (rx : ℚ) / (real_w : ℚ) * (base_w : ℚ)
      let scaled_y : ℚ := (ry : ℚ) / (real_h : ℚ) * (base_h : ℚ)
      (pytrunc scaled_x, pytrunc scaled_y)

/-
Tool execution (claude.py lines 394-538). OS side effects are recorded as
an ordered trace; the claims about the executor concern its statistics
bookkeeping and that invalid parameters fail before any OS interaction.
-/

/-- The tool usage counters of TankClaudeController (claude.py 189-194). -/
structure ToolStats where
  success_count : Nat
  error_count : Nat
  total_calls : Nat
  average_duration : ℚ
deriving DecidableEq, Repr

/-- The keyword arguments a tool_use block can pass to _execute_tool.
A missing key is none; Python truthiness treats an empty list or empty
string like a missing value, which the definition mirrors where the
source uses `not`. -/
structure Kwargs where
  action : Option String
  coordinate : Option (List ℤ)
  text : Option String
deriving DecidableEq, Repr

/-- One primitive OS interaction performed through pyautogui or ImageGrab. -/
inductive OSEffect
  | screenshotGrab
  | moveTo (x y : ℤ)
  | mouseDown (x y : ℤ)
  | dragMoveTo (x y : ℤ)
  | mouseUp
  | click
  | rightClick
  | middleClick
  | doubleClick
  | keyDown (k : String)
  | keyUp (k : String)
  | typewrite (s : String)
  | positionQuery
deriving DecidableEq, Repr

/-- The ambient OS state read by the executor: the current pointer
position and the encoded screenshot the capture pipeline would return. -/
structure OSEnv where
  cursor : ℤ × ℤ
  screenshotData : String
deriving DecidableEq, Repr

/-- _update_tool_success_stats (claude.py lines 534-538): increment the
success count and update the running mean duration incrementally. -/
def _update_tool_success_stats (stats : ToolStats) (duration : ℚ) : ToolStats :=
  let sc := stats.success_count + 1
  { stats with
      success_count := sc
      average_duration :=
        (stats.average_duration * ((sc : ℚ) - 1) + duration) / (sc : ℚ) }

/-- Python text chunking `[s[i:i+n] for i in range(0, len(s), n)]` for
positive n, on character lists. -/
def chunkChars (n : Nat) (h : 0 < n) : List Char → List (List Char)
  | [] => []
  | c :: t => (c :: t.take (n - 1)) :: chunkChars n h (t.drop (n - 1))
termination_by l => l.length
decreasing_by
  simp only [List.length_drop, List.length_cons]
  omega

/-- The per key transformation of the key action: k.strip().lower(). -/
def keyNormalize (k : String) : String := pyLower (pyStrip k)

/-- Rendering of an integer pair the way Python formats f-strings with
a tuple of two ints. -/
def renderPair (x y : ℤ) : String :=
  "(" ++ toString x ++ ", " ++ toString y ++ ")"

/-- TankClaudeController._execute_tool (claude.py lines 394-532).
Returns the updated stats, the trace of OS interactions performed, and
either the content list of the returned tool_result or the raised
exception. The measured wall clock duration of a successful call is the
opaque parameter `duration`. -/
def _execute_tool (st : ScaleState) (stats : ToolStats) (env : OSEnv)
    (duration : ℚ) (kw : Kwargs) :
    ToolStats × List OSEffect × Except PyExc (List RItem) :=
  let stats := { stats with total_calls := stats.total_calls + 1 }
  let fail := fun (msg : String) =>
    ({ stats with error_count := stats.error_count + 1 },
     ([] : List OSEffect), (Except.error (PyExc.valueError msg) : Except PyExc (List RItem)))
  match kw.action with
  | none => fail "No action specified in tool input"
  | some action =>
    if action = "" then fail "No action specified in tool input"
    else if action = "screenshot" then
      (_update_tool_success_stats stats duration,
       [.screenshotGrab], .ok [.image env.screenshotData])
    else if action = "mouse_move" || action = "left_click_drag" then
      match kw.coordinate with
      | none => fail ("Invalid coordinate for " ++ action ++ ".")
      | some coordinate =>
        if coordinate.length ≠ 2 then
          fail ("Invalid coordinate for " ++ action ++ ".")
        else
          let x := (scale_coordinates st .api (coordinate.headD 0) (coordinate.getD 1 0)).1
          let y := (scale_coordinates st .api (coordinate.headD 0) (coordinate.getD 1 0)).2
          if action = "mouse_move" then
            (_update_tool_success_stats stats duration,
             [.moveTo x y],
             .ok [.rtext ("Moved mouse to " ++ renderPair x y)])
          else
            let startx := env.cursor.1
            let starty := env.cursor.2
            (_update_tool_success_stats stats duration,
             [.positionQuery, .mouseDown startx starty, .dragMoveTo x y, .mouseUp],
             .ok [.rtext ("Dragged mouse from " ++ renderPair startx starty ++
               " to " ++ renderPair x y)])
    else if action = "left_click" || action = "right_click" ||
        action = "middle_click" || action = "double_click" then
      let eff : OSEffect :=
        if action = "left_click" then .click
        else if action = "right_click" then .rightClick
        else if action = "middle_click" then .middleClick
        else .doubleClick
      (_update_tool_success_stats stats duration,
       [eff], .ok [.rtext ("Performed " ++ action)])
    else if action = "key" || action = "type" then
      match kw.text with
      | none => fail "No text provided for keyboard action."
      | some text =>
        if text = "" then fail "No text provided for keyboard action."
        else if action = "key" then
          let keys := text.splitOn "+"
          (_update_tool_success_stats stats duration,
           (keys.map fun k => .keyDown (keyNormalize k)) ++
             (keys.reverse.map fun k => .keyUp (keyNormalize k)),
           .ok [.rtext ("Input text: " ++ text)])
        else
          (_update_tool_success_stats stats duration,
           (chunkChars 50 (by omega) text.data).map fun ch => .typewrite ⟨ch⟩,
           .ok [.rtext ("Input text: " ++ text)])
    else if action = "cursor_position" then
      let scaled := scale_coordinates st .computer env.cursor.1 env.cursor.2
      (_update_tool_success_stats stats duration,
       [.positionQuery],
       .ok [.rtext ("Cursor position: " ++ renderPair scaled.1 scaled.2)])
    else fail ("Unknown action: " ++ action)

/-
The agent control loop (_process_message_loop, claude.py lines 582-669).
The remote model and the OS are the environment: a script lists, for each
messages.create call, either the content blocks of the response or a
raised transport error, and each scripted tool_use block carries the
outcome its _execute_tool call would produce (a result content list, or
str(e) of the raised exception, which the loop catches per block).
-/

/-- The input object of a tool_use block: its Python repr (used in the
Tool Use yield) and input.get("action") (used in the Tool executed
yield). -/
structure PyInput where
  inputRepr : String
  action : Option String
deriving DecidableEq, Repr

/-- A content block of one scripted model response. -/
inductive SBlock
  | text (s : String)
  | toolUse (id name : String) (input : PyInput) (outcome : Except String (List RItem))
deriving Repr

/-- One scripted outcome of a messages.create call. -/
inductive Response
  | ok (blocks : List SBlock)
  | raiseExc (msg : String)
deriving Repr

/-- Whether a scripted block is a tool_use block. -/
def SBlock.isToolUse : SBlock → Bool
  | .toolUse _ _ _ _ => true
  | .text _ => false

/-- The completion phrases of claude.py lines 624-626. -/
def completionPhrases : List String :=
  ["completed", "finished", "done", "task accomplished"]

/-- Whether a text block flags the response as a completion candidate:
any completion phrase occurs in the lowercased text. -/
def textFlagsComplete (t : String) : Bool :=
  completionPhrases.any fun p => pyContains (pyLower t) p

/-- Python str() of an optional value, as f-strings render
input.get("action"). -/
def pyOptStr : Option String → String
  | some a => a
  | none => "None"

/-- Result of the for loop over the content blocks of one response
(claude.py lines 612-658): updated messages, yielded chunks, the
has_tool_use and response_complete flags, and how many tool executions
were attempted. -/
structure BlockRes where
  msgs : List Msg
  ys : List String
  hasTool : Bool
  complete : Bool
  tools : Nat
deriving DecidableEq, Repr

/-- The for loop over the content blocks of one response. A text block is
appended as an assistant message, yielded, and checked for completion
phrases; a tool_use block is announced, executed, and either the paired
tool_use and tool_result messages or an error text message are appended. -/
def processBlocks : List Msg → List SBlock → BlockRes
  | msgs, [] => ⟨msgs, [], false, false, 0⟩
  | msgs, .text t :: rest =>
    let msgs := msgs ++ [⟨.assistant, [.text t]⟩]
    let r := processBlocks msgs rest
    ⟨r.msgs, t :: r.ys, r.hasTool, textFlagsComplete t || r.complete, r.tools⟩
  | msgs, .toolUse id name input outcome :: rest =>
    let y1 := "Tool Use: " ++ name ++ "\nInput: " ++ input.inputRepr
    match outcome with
    | .ok result =>
      let msgs := msgs ++
        [⟨.assistant, [.toolUse id name input.inputRepr]⟩,
         ⟨.user, [.toolResult id result]⟩]
      let y2 := "Tool executed: " ++ pyOptStr input.action
      let r := processBlocks msgs rest
      ⟨r.msgs, y1 :: y2 :: r.ys, true, r.complete, r.tools + 1⟩
    | .error e =>
      let err := "Tool execution error: " ++ e
      let msgs := msgs ++ [⟨.user, [.text err]⟩]
      let r := processBlocks msgs rest
      ⟨r.msgs, y1 :: err :: r.ys, true, r.complete, r.tools + 1⟩

/-- How one run of the message loop ended. -/
inductive LoopEnd
  | normalEnd
  | ceilingEnd
  | errorEnd
  | cancelledRaise
  | scriptEnd
deriving DecidableEq, Repr

/-- Observable outcome of one run of _process_message_loop. lastResp is
the last scripted response that was processed; scriptEnd marks a run
whose script was exhausted before the loop decided to stop. -/
structure LoopResult where
  yields : List String
  msgs : List Msg
  endKind : LoopEnd
  lastResp : Option (List SBlock)
  modelCalls : Nat
  toolExecs : Nat
deriving Repr

/-- The warning yielded when the hard message ceiling is exceeded
(claude.py line 664). -/
def limitWarning : String :=
  "Warning: message limit reached. Terminating conversation."

/-- The two steps performed before each messages.create request: prune
old screenshots (claude.py line 594) and drop a dangling trailing
assistant message (lines 596-597). -/
def loopPrelude (msgs : List Msg) : List Msg :=
  let msgs := _maybe_filter_to_n_most_recent_images msgs 2 2
  if (msgs.getLast?.map Msg.role) = some Role.assistant then msgs.dropLast
  else msgs

/-- TankClaudeController._process_message_loop (claude.py lines 582-669).
Per iteration: check the cooperative cancellation flag, run the prelude,
request the next response, process its blocks, then stop when the
response had no tool_use block and was flagged complete, or when the
message count exceeds history_size * 10 (after yielding the warning). A
transport error is caught, yielded as an Error chunk, and ends the loop.
The cancellation flag is a constant of one run here: the concurrent
cancel that flips it mid run is outside the sequential embedding, so the
per block flag checks of lines 613-615 coincide with the check at line
588. An exhausted script marks the point where the environment offers no
further response. -/
def _process_message_loop (history_size : Nat) (cancelled : Bool) :
    List Response → List Msg → LoopResult
  | [], msgs =>
    if cancelled then ⟨[], msgs, .cancelledRaise, none, 0, 0⟩
    else ⟨[], loopPrelude msgs, .scriptEnd, none, 0, 0⟩
  | r :: rest, msgs =>
    if cancelled then ⟨[], msgs, .cancelledRaise, none, 0, 0⟩
    else
      let msgs := loopPrelude msgs
      match r with
      | .raiseExc m => ⟨["Error: " ++ m], msgs, .errorEnd, none, 1, 0⟩
      | .ok blocks =>
        let r := processBlocks msgs blocks
        if !r.hasTool && r.complete then
          ⟨r.ys, r.msgs, .normalEnd, some blocks, 1, r.tools⟩
        else if r.msgs.length > history_size * 10 then
          ⟨r.ys ++ [limitWarning], r.msgs, .ceilingEnd, some blocks, 1, r.tools⟩
        else
          let res := _process_message_loop history_size cancelled rest r.msgs
          ⟨r.ys ++ res.yields, res.msgs, res.endKind,
           some (res.lastResp.getD blocks), 1 + res.modelCalls,
           r.tools + res.toolExecs⟩

/-
TankClaudeController.execute_command (claude.py lines 671-704), the Tank
handler stream (computer_use_tank.py lines 134-194) and the manager
(src/core/command_manager.py).
-/

/-- The controller state read and written by execute_command and
cancel_current: the cooperative cancellation flag, the rolling
conversation history and the configured history size (10 in the Tank
handler configuration). -/
structure CtrlState where
  cancelled : Bool
  history : List Msg
  history_size : Nat
deriving DecidableEq, Repr

/-- Python lst[-n:]. For n = 0 this is the whole list, not the empty
list. -/
def pySliceLastN (l : List Msg) (n : Nat) : List Msg :=
  if n = 0 then l else l.drop (l.length - n)

/-- Observable outcome of one run of TankClaudeController.execute_command:
final controller state, yielded chunks, number of messages.create calls,
number of attempted tool executions, and the escaping exception if any. -/
structure CtrlExecResult where
  st : CtrlState
  yields : List String
  modelCalls : Nat
  toolExecs : Nat
  exc : Option PyExc
deriving DecidableEq, Repr

/-- TankClaudeController.execute_command (claude.py lines 671-704): an
empty or whitespace only command returns before doing anything; otherwise
the cancellation flag is reset, the stripped command is appended to the
rolling history as a user message and the message loop is run, yielding
its non empty chunks. On normal completion the history keeps the last
history_size messages; on cancellation the marker chunk is yielded and
the CancelledError propagates. Session initialization (lines 677-678)
touches no state read here and is omitted. -/
def TankClaudeController.execute_command (st : CtrlState)
    (script : List Response) (command : String) : CtrlExecResult :=
  if pyStrip command = "" then ⟨st, [], 0, 0, none⟩
  else
    let st := { st with cancelled := false }
    let command := pyStrip command
    let messages := st.history ++ [⟨Role.user, [Item.text command]⟩]
    let res := _process_message_loop st.history_size st.cancelled script messages
    match res.endKind with
    | .cancelledRaise =>
      ⟨st, (res.yields.filter (· ≠ "")) ++ ["Command cancelled"],
       res.modelCalls, res.toolExecs, some (.cancelledError "")⟩
    | _ =>
      ⟨{ st with history := pySliceLastN res.msgs st.history_size },
       res.yields.filter (· ≠ ""), res.modelCalls, res.toolExecs, none⟩

/-- The chunk transformation of TankHandler.execute_command
(computer_use_tank.py lines 145-173) in a run without cancellation: each
chunk is stripped and empty chunks are skipped. The duplicate
suppression of lines 162-165 hashes the chunk together with time.time(),
so it never suppresses anything and is omitted. -/
def TankHandler.transformStream (chunks : List String) : List String :=
  (chunks.map pyStrip).filter (· ≠ "")

/-- TankHandler.execute_command (computer_use_tank.py lines 134-194) as a
function of the controller outcome: chunks are stripped and filtered; a
CancelledError escaping the controller is caught and replaced by a final
Command cancelled chunk, and the handler returns instead of re-raising. -/
def TankHandler.execute_command (ctrlRes : CtrlExecResult) : List String :=
  match ctrlRes.exc with
  | some (.cancelledError _) =>
    TankHandler.transformStream ctrlRes.yields ++ ["Command cancelled"]
  | some _ => TankHandler.transformStream ctrlRes.yields
  | none => TankHandler.transformStream ctrlRes.yields

/-- Command execution states (command_manager.py lines 9-15). -/
inductive CommandState
  | queued
  | executing
  | completed
  | cancelled
  | failed
deriving DecidableEq, Repr

/-- CommandContext (command_manager.py lines 17-26). The callback is
modelled by whether one is present; its invocations are recorded in
logs. The task handle is part of the manager state. -/
structure CommandContext where
  command : String
  hasCallback : Bool
  timestamp : ℚ
  state : CommandState
  error : Option String
  result : Option String
deriving DecidableEq, Repr

/-- The chunk fold of AsyncCommandManager._execute_command (lines
109-115): last_result and ctx.result keep the last truthy chunk. -/
def streamFold : Option String × Option String → List String →
    Option String × Option String
  | acc, [] => acc
  | (last, resf), r :: t =>
    streamFold (if r ≠ "" then (some r, some r) else (last, resf)) t

/-- AsyncCommandManager._execute_command (command_manager.py lines
106-138) in a run where the handler stream completes without raising
(TankHandler.execute_command never raises: it catches CancelledError and
Exception internally). Returns the final context and the number of
callback invocations. The last truthy chunk decides the terminal state:
the literal cancellation marker forces Cancelled with the standard error,
anything else gives Completed. -/
def AsyncCommandManager._execute_command (ctx : CommandContext)
    (chunks : List String) : CommandContext × Nat :=
  let (last_result, resf) := streamFold (none, ctx.result) chunks
  let cbs := if ctx.hasCallback then chunks.length else 0
  let ctx := { ctx with result := resf }
  if last_result = some "Command cancelled" then
    ({ ctx with state := .cancelled, error := some "Command cancelled by user" }, cbs)
  else
    ({ ctx with state := .completed }, cbs)

/-- The history bookkeeping in the finally block of process_queue
(command_manager.py lines 83-87): evict the oldest entry once the
configured capacity is reached, then append the finished context. When
max_history is 0 the pop of an empty list would raise IndexError in
Python; the theorems assume a positive capacity. -/
def AsyncCommandManager.recordHistory (max_history : Nat)
    (hist : List CommandContext) (ctx : CommandContext) : List CommandContext :=
  (if hist.length ≥ max_history then hist.drop 1 else hist) ++ [ctx]

/-- The history after a sequence of commands has reached terminal states,
starting from a given history: one recordHistory step per finished
command, in completion order. -/
def AsyncCommandManager.historyFold (max_history : Nat)
    (hist : List CommandContext) (cmds : List CommandContext) :
    List CommandContext :=
  cmds.foldl (AsyncCommandManager.recordHistory max_history) hist

/-- TankClaudeController.cancel_current (claude.py lines 706-710): set
the cooperative flag, truncate the rolling history to the first
history_size messages, then raise asyncio.CancelledError. -/
def TankClaudeController.cancel_current (st : CtrlState) :
    CtrlState × Option PyExc :=
  ({ st with cancelled := true, history := st.history.take st.history_size },
   some (.cancelledError "Command cancelled by user"))

/-- The Tank handler state: its controller plus its tool_stats dict. -/
structure HandlerState where
  controller : CtrlState
  tool_stats : List (String × ℚ)
deriving DecidableEq, Repr

/-- TankHandler.cancel_current (computer_use_tank.py lines 196-207): call
the controller. Its `except Exception ... raise` clause does not catch
the CancelledError (a BaseException on Python 3.11), and would re-raise
it even if it did, so any exception propagates; tool_stats is cleared
only when no exception was raised, which never happens with this
controller. -/
def TankHandler.cancel_current (hs : HandlerState) : HandlerState × Option PyExc :=
  let (c, exc) := TankClaudeController.cancel_current hs.controller
  let hs := { hs with controller := c }
  match exc with
  | some e => (hs, some e)
  | none => ({ hs with tool_stats := [] }, none)

/-- The manager state (command_manager.py lines 31-44). callbackLog
records callback invocations made directly by cancel_current; drained
records contexts dequeued and marked by shutdown; taskCancelRequested
abstracts the cancel and await of the running asyncio task (lines
149-154), whose precise effect depends on the scheduler and which is
unreachable with the Tank handler chain (see the C1 theorem). -/
structure MgrState where
  handler : HandlerState
  queue : List CommandContext
  current_command : Option CommandContext
  is_processing : Bool
  _shutdown : Bool
  command_history : List CommandContext
  max_history : Nat
  callbackLog : List CommandContext
  taskCancelRequested : Bool
  drained : List CommandContext
deriving DecidableEq, Repr

/-- AsyncCommandManager.cancel_current (command_manager.py lines
140-166): a no-op unless a command is Executing; otherwise signal the
handler first — and if that call raises, the exception propagates before
the task is cancelled, the state forced to Cancelled or the callback
invoked (lines 148-164 are skipped). -/
def AsyncCommandManager.cancel_current (s : MgrState) : MgrState × Option PyExc :=
  match s.current_command with
  | some cc =>
    if cc.state = CommandState.executing then
      let (h, exc) := TankHandler.cancel_current s.handler
      let s := { s with handler := h }
      match exc with
      | some e => (s, some e)
      | none =>
        let s := { s with taskCancelRequested := true, is_processing := false }
        let cc := { cc with state := CommandState.cancelled,
                            error := some "Command cancelled by user" }
        let s := { s with current_command := some cc }
        let s :=
          if cc.hasCallback then { s with callbackLog := s.callbackLog ++ [cc] }
          else s
        (s, none)
    else (s, none)
  | none => (s, none)

/-- AsyncCommandManager.shutdown (command_manager.py lines 168-180): set
the shutdown flag, cancel the current command, then drain the queue and
mark every queued context Cancelled. An exception escaping cancel_current
propagates before the drain loop runs. -/
def AsyncCommandManager.shutdown (s : MgrState) : MgrState × Option PyExc :=
  let s := { s with _shutdown := true }
  let (s, exc) := AsyncCommandManager.cancel_current s
  match exc with
  | some e => (s, some e)
  | none =>
    let marked := s.queue.map fun cc =>
      { cc with state := CommandState.cancelled,
                error := some "Command manager shutdown" }
    ({ s with queue := [], drained := s.drained ++ marked }, none)

/-
Definitions used only to state the theorems below.
-/

/-- The number of images the filter removes for a given starting count,
with keep count 2 and removal batch size 2. -/
def pruneAmount (total : Nat) : Nat :=
  if total ≤ 2 then 0 else (total - 2) - (total - 2) % 2

/-- Whether a scripted response contains a tool_use block. -/
def hasToolUseB (blocks : List SBlock) : Bool := blocks.any SBlock.isToolUse

/-- Whether a scripted response contains a text block with a completion
phrase. -/
def hasCompletionText (blocks : List SBlock) : Bool :=
  blocks.any fun b => match b with
    | .text t => textFlagsComplete t
    | _ => false

/-- A manager state with one command currently Executing and an empty
queue, over the Tank handler chain. -/
def mgrExec : MgrState where
  handler := { controller := { cancelled := false, history := [], history_size := 10 },
               tool_stats := [] }
  queue := []
  current_command := some ⟨"open a browser", true, 0, CommandState.executing, none, none⟩
  is_processing := true
  _shutdown := false
  command_history := []
  max_history := 100
  callbackLog := []
  taskCancelRequested := false
  drained := []

/-- The same manager state with a second command still queued. -/
def mgrShut : MgrState :=
  { mgrExec with
      queue := [⟨"second command", false, 1, CommandState.queued, none, none⟩] }

/-- A scaling state with scaling disabled: environment fallback screen
1920x1080, default logical space 1024x768, no monitor offset. -/
def stC5cex : ScaleState :=
  ⟨false, true, 0, 0, 1920, 1080, 1024, 768⟩

/-- A scaling state with scaling enabled, no offset, matching aspect
ratios: real screen 1920x1440, logical space 1024x768 (both 4:3). -/
def stC6cex : ScaleState :=
  ⟨true, true, 0, 0, 1920, 1440, 1024, 768⟩

/-- The x or y component of the enabled API branch of scale_coordinates,
applied to an already nonnegative input: scale, add offset, truncate,
clamp to the real screen range of that axis. -/
def apiAxis (off w b v : ℤ) : ℤ :=
  min (max (pytrunc ((v : ℚ) / (b : ℚ) * (w : ℚ) + (off : ℚ))) off)
    (off + w - 1)

/-- The x or y component of the enabled COMPUTER branch of
scale_coordinates, including the entry clamp of negative inputs. -/
def computerAxis (off w b v : ℤ) : ℤ :=
  let v := if v < 0 then 0 else v
  let r := v - off
  let r := if r < 0 then 0 else r
  let r := if r > w then w else r
  pytrunc ((r : ℚ) / (w : ℚ) * (b : ℚ))

/-- The spec name for the logical to screen direction of the coordinate
mapper. -/
def toScreen (st : ScaleState) (p : ℤ × ℤ) : ℤ × ℤ :=
  scale_coordinates st ScalingSource.api p.1 p.2

/-- The spec name for the screen to logical direction of the coordinate
mapper. -/
def toLogical (st : ScaleState) (p : ℤ × ℤ) : ℤ × ℤ :=
  scale_coordinates st ScalingSource.computer p.1 p.2

/-
Helper lemmas for the screenshot pruning claim.
-/

@[simp] theorem imagesOfR_nil : imagesOfR [] = [] := rfl

@[simp] theorem imagesOfR_cons_image (d : String) (t : List RItem) :
    imagesOfR (.image d :: t) = d :: imagesOfR t := rfl

@[simp] theorem imagesOfR_cons_rtext (s : String) (t : List RItem) :
    imagesOfR (.rtext s :: t) = imagesOfR t := rfl

@[simp] theorem eraseImagesR_nil : eraseImagesR [] = [] := rfl

@[simp] theorem eraseImagesR_cons_image (d : String) (t : List RItem) :
    eraseImagesR (.image d :: t) = eraseImagesR t := rfl

@[simp] theorem eraseImagesR_cons_rtext (s : String) (t : List RItem) :
    eraseImagesR (.rtext s :: t) = .rtext s :: eraseImagesR t := rfl

@[simp] theorem imagesOfItems_nil : imagesOfItems [] = [] := rfl

@[simp] theorem imagesOfItems_cons_toolResult (id : String) (c : List RItem)
    (t : List Item) :
    imagesOfItems (.toolResult id c :: t) = imagesOfR c ++ imagesOfItems t := rfl

@[simp] theorem imagesOfItems_cons_text (s : String) (t : List Item) :
    imagesOfItems (.text s :: t) = imagesOfItems t := rfl

@[simp] theorem imagesOfItems_cons_toolUse (id name input : String)
    (t : List Item) :
    imagesOfItems (.toolUse id name input :: t) = imagesOfItems t := rfl

@[simp] theorem eraseImagesItems_nil : eraseImagesItems [] = [] := rfl

@[simp] theorem eraseImagesItems_cons_toolResult (id : String) (c : List RItem)
    (t : List Item) :
    eraseImagesItems (.toolResult id c :: t) =
      .toolResult id (eraseImagesR c) :: eraseImagesItems t := rfl

@[simp] theorem eraseImagesItems_cons_text (s : String) (t : List Item) :
    eraseImagesItems (.text s :: t) = .text s :: eraseImagesItems t := rfl

@[simp] theorem eraseImagesItems_cons_toolUse (id name input : String)
    (t : List Item) :
    eraseImagesItems (.toolUse id name input :: t) =
      .toolUse id name input :: eraseImagesItems t := rfl

@[simp] theorem imagesOf_nil : imagesOf [] = [] := rfl

@[simp] theorem imagesOf_cons (m : Msg) (t : List Msg) :
    imagesOf (m :: t) = imagesOfItems m.content ++ imagesOf t := rfl

@[simp] theorem eraseImages_nil : eraseImages [] = [] := rfl

@[simp] theorem eraseImages_cons (m : Msg) (t : List Msg) :
    eraseImages (m :: t) = ⟨m.role, eraseImagesItems m.content⟩ :: eraseImages t := rfl

theorem removeImagesR_spec (k : Nat) (l : List RItem) (k2 : Nat)
    (l2 : List RItem) (hrun : removeImagesR k l = (k2, l2)) :
    imagesOfR l2 = (imagesOfR l).drop k ∧
    k2 = k - (imagesOfR l).length ∧
    eraseImagesR l2 = eraseImagesR l := by
  induction l generalizing k k2 l2 with
  | nil =>
    simp only [removeImagesR, Prod.mk.injEq] at hrun
    simp [← hrun.1, ← hrun.2]
  | cons c t ih =>
    cases c with
    | image d =>
      cases k with
      | zero =>
        rcases hrec : removeImagesR 0 t with ⟨ka, ta⟩
        have h := ih 0 ka ta hrec
        rw [removeImagesR, if_neg (by simp), hrec] at hrun
        simp only [Prod.mk.injEq] at hrun
        simp [← hrun.1, ← hrun.2, h.1, h.2.1, h.2.2]
      | succ n =>
        have hnn : n + 1 - 1 = n := rfl
        rw [removeImagesR, if_pos (by simp [RItem.isImage]), hnn] at hrun
        have h := ih n k2 l2 hrun
        refine ⟨?_, ?_, ?_⟩
        · simpa [List.drop_succ_cons] using h.1
        · have := h.2.1
          simp only [imagesOfR_cons_image, List.length_cons]
          omega
        · simpa using h.2.2
    | rtext s =>
      rcases hrec : removeImagesR k t with ⟨ka, ta⟩
      have h := ih k ka ta hrec
      rw [removeImagesR, if_neg (by simp [RItem.isImage]), hrec] at hrun
      simp only [Prod.mk.injEq] at hrun
      simp [← hrun.1, ← hrun.2, h.1, h.2.1, h.2.2]

theorem removeImagesItems_spec (k : Nat) (l : List Item) (k2 : Nat)
    (l2 : List Item) (hrun : removeImagesItems k l = (k2, l2)) :
    imagesOfItems l2 = (imagesOfItems l).drop k ∧
    k2 = k - (imagesOfItems l).length ∧
    eraseImagesItems l2 = eraseImagesItems l := by
  induction l generalizing k k2 l2 with
  | nil =>
    simp only [removeImagesItems, Prod.mk.injEq] at hrun
    simp [← hrun.1, ← hrun.2]
  | cons it t ih =>
    cases it with
    | toolResult id content =>
      rcases hR : removeImagesR k content with ⟨ka, ca⟩
      have hr := removeImagesR_spec k content ka ca hR
      rcases hT : removeImagesItems ka t with ⟨kb, tb⟩
      have h := ih ka kb tb hT
      rw [removeImagesItems, hR] at hrun
      dsimp only at hrun
      rw [hT] at hrun
      dsimp only at hrun
      simp only [Prod.mk.injEq] at hrun
      refine ⟨?_, ?_, ?_⟩
      · rw [← hrun.2]
        simp only [imagesOfItems_cons_toolResult]
        rw [List.drop_append_eq_append_drop, h.1, hr.1, hr.2.1]
      · simp only [imagesOfItems_cons_toolResult, List.length_append]
        have h1 := h.2.1
        have h2 := hr.2.1
        omega
      · rw [← hrun.2]
        simp only [eraseImagesItems_cons_toolResult]
        rw [h.2.2, hr.2.2]
    | text s =>
      rcases hT : removeImagesItems k t with ⟨kb, tb⟩
      have h := ih k kb tb hT
      rw [removeImagesItems, hT] at hrun
      dsimp only at hrun
      simp only [Prod.mk.injEq] at hrun
      simp [← hrun.1, ← hrun.2, h.1, h.2.1, h.2.2]
    | toolUse id name input =>
      rcases hT : removeImagesItems k t with ⟨kb, tb⟩
      have h := ih k kb tb hT
      rw [removeImagesItems, hT] at hrun
      dsimp only at hrun
      simp only [Prod.mk.injEq] at hrun
      simp [← hrun.1, ← hrun.2, h.1, h.2.1, h.2.2]

theorem removeImagesMsgs_spec (k : Nat) (msgs : List Msg) (k2 : Nat)
    (msgs2 : List Msg) (hrun : removeImagesMsgs k msgs = (k2, msgs2)) :
    imagesOf msgs2 = (imagesOf msgs).drop k ∧
    k2 = k - (imagesOf msgs).length ∧
    eraseImages msgs2 = eraseImages msgs := by
  induction msgs generalizing k k2 msgs2 with
  | nil =>
    simp only [removeImagesMsgs, Prod.mk.injEq] at hrun
    simp [← hrun.1, ← hrun.2]
  | cons m t ih =>
    rcases hI : removeImagesItems k m.content with ⟨ka, ca⟩
    have hi := removeImagesItems_spec k m.content ka ca hI
    rcases hT : removeImagesMsgs ka t with ⟨kb, tb⟩
    have h := ih ka kb tb hT
    rw [removeImagesMsgs, hI] at hrun
    dsimp only at hrun
    rw [hT] at hrun
    dsimp only at hrun
    simp only [Prod.mk.injEq] at hrun
    refine ⟨?_, ?_, ?_⟩
    · rw [← hrun.2]
      simp only [imagesOf_cons]
      rw [List.drop_append_eq_append_drop, h.1, hi.1, hi.2.1]
    · simp only [imagesOf_cons, List.length_append]
      have h1 := h.2.1
      have h2 := hi.2.1
      omega
    · rw [← hrun.2]
      simp only [eraseImages_cons]
      rw [h.2.2, hi.2.2]

/-- C4: with images_to_keep 2 and min_removal_threshold 2, the filter
removes exactly (K - 2) rounded down to a multiple of 2 images when K
exceeds 2 and none otherwise, always the oldest images first across the
whole message list, and everything that is not an image is unchanged. -/
theorem C4_screenshot_pruning (msgs : List Msg) :
    imagesOf (_maybe_filter_to_n_most_recent_images msgs 2 2) =
      (imagesOf msgs).drop (pruneAmount (countImages msgs)) ∧
    countImages (_maybe_filter_to_n_most_recent_images msgs 2 2) =
      countImages msgs - pruneAmount (countImages msgs) ∧
    eraseImages (_maybe_filter_to_n_most_recent_images msgs 2 2) =
      eraseImages msgs := by
  by_cases h : countImages msgs ≤ 2
  · have hout : _maybe_filter_to_n_most_recent_images msgs 2 2 = msgs := by
      simp [_maybe_filter_to_n_most_recent_images, h]
    have hp : pruneAmount (countImages msgs) = 0 := by simp [pruneAmount, h]
    rw [hout, hp]
    simp
  · rcases hM : removeImagesMsgs
      ((countImages msgs - 2) - (countImages msgs - 2) % 2) msgs with ⟨kf, out⟩
    have hs := removeImagesMsgs_spec _ msgs kf out hM
    have hout : _maybe_filter_to_n_most_recent_images msgs 2 2 = out := by
      simp [_maybe_filter_to_n_most_recent_images, h, hM]
    have hp : pruneAmount (countImages msgs) =
        (countImages msgs - 2) - (countImages msgs - 2) % 2 := by
      simp [pruneAmount, h]
    refine ⟨?_, ?_, ?_⟩
    · rw [hout, hp, hs.1]
    · rw [hout, hp]
      show (imagesOf out).length = _
      rw [hs.1, List.length_drop]
      rfl
    · rw [hout]
      exact hs.2.2

/-
Helper lemmas for the manager claims.
-/

theorem getLast?_cons_or {α : Type} (c : α) (l : List α) :
    (c :: l).getLast? = l.getLast?.or (some c) := by
  cases l with
  | nil => simp
  | cons x xs =>
    rw [List.getLast?_cons_cons]
    rcases h : (x :: xs).getLast? with _ | r
    · rw [List.getLast?_eq_none_iff] at h
      exact absurd h (by simp)
    · simp [Option.or]

theorem streamFold_spec (chunks : List String) (a b : Option String) :
    streamFold (a, b) chunks =
      ((chunks.filter fun r => r ≠ "").getLast?.or a,
       (chunks.filter fun r => r ≠ "").getLast?.or b) := by
  induction chunks generalizing a b with
  | nil => simp [streamFold]
  | cons c t ih =>
    by_cases hc : c = ""
    · rw [streamFold, if_neg (by simp [hc])]
      rw [ih a b]
      simp [hc]
    · rw [streamFold, if_pos (by simp [hc])]
      rw [ih (some c) (some c)]
      have hf : (c :: t).filter (fun r => r ≠ "") =
          c :: t.filter (fun r => r ≠ "") := by simp [hc]
      rw [hf, getLast?_cons_or]
      rcases ht : (t.filter fun r => r ≠ "").getLast? with _ | r
      · simp [Option.or]
      · simp [Option.or]

/-- C2: whenever the handler stream completes without raising, the
manager marks the command Cancelled with the standard error exactly when
the last non empty chunk equals the literal cancellation marker, and
Completed otherwise. -/
theorem C2_marker_detection (ctx : CommandContext) (chunks : List String) :
    ((chunks.filter fun r => r ≠ "").getLast? = some "Command cancelled" →
      (AsyncCommandManager._execute_command ctx chunks).1.state =
          CommandState.cancelled ∧
        (AsyncCommandManager._execute_command ctx chunks).1.error =
          some "Command cancelled by user") ∧
    ((chunks.filter fun r => r ≠ "").getLast? ≠ some "Command cancelled" →
      (AsyncCommandManager._execute_command ctx chunks).1.state =
        CommandState.completed) := by
  rw [AsyncCommandManager._execute_command, streamFold_spec]
  rcases h : (chunks.filter fun r => r ≠ "").getLast? with _ | r
  · refine ⟨fun hcontr => by simp at hcontr, fun _ => ?_⟩
    simp [Option.or]
  · by_cases hr : r = "Command cancelled"
    · subst hr
      refine ⟨fun _ => ?_, fun hcontr => absurd rfl hcontr⟩
      simp [Option.or]
    · refine ⟨fun hcontr => (hr (by simpa using hcontr)).elim, fun _ => ?_⟩
      simp [Option.or, hr]

/-- C2 witness: a stream whose last non empty chunk is the marker is
marked Cancelled with the standard error message. -/
theorem C2_marker_detection_witness :
    (["Tool executed: screenshot", "Command cancelled", ""].filter
        fun r => r ≠ "").getLast? = some "Command cancelled" ∧
    (AsyncCommandManager._execute_command
        ⟨"open a browser", true, 0, CommandState.executing, none, none⟩
        ["Tool executed: screenshot", "Command cancelled", ""]).1.state =
      CommandState.cancelled := by
  refine ⟨by decide, ?_⟩
  exact (C2_marker_detection
    ⟨"open a browser", true, 0, CommandState.executing, none, none⟩
    ["Tool executed: screenshot", "Command cancelled", ""]).1 (by decide) |>.1

theorem recordHistory_eq_drop (max_history : Nat) (h0 : 0 < max_history)
    (hist : List CommandContext) (hlen : hist.length ≤ max_history)
    (c : CommandContext) :
    AsyncCommandManager.recordHistory max_history hist c =
      (hist ++ [c]).drop ((hist.length + 1) - max_history) := by
  rw [AsyncCommandManager.recordHistory]
  by_cases h : hist.length ≥ max_history
  · have heq : hist.length = max_history := le_antisymm hlen h
    rw [if_pos h, List.drop_append_eq_append_drop]
    have h1 : hist.length + 1 - max_history = 1 := by omega
    have h2 : 1 - hist.length = 0 := by omega
    rw [h1, h2]
    simp
  · rw [if_neg h]
    have h1 : hist.length + 1 - max_history = 0 := by omega
    rw [h1, List.drop_zero]

theorem historyFold_eq_drop (max_history : Nat) (h0 : 0 < max_history)
    (cmds : List CommandContext) :
    ∀ (hist : List CommandContext), hist.length ≤ max_history →
      AsyncCommandManager.historyFold max_history hist cmds =
        (hist ++ cmds).drop ((hist.length + cmds.length) - max_history) := by
  induction cmds with
  | nil =>
    intro hist hlen
    have h1 : hist.length - max_history = 0 := by omega
    simp [AsyncCommandManager.historyFold, h1]
  | cons c t ih =>
    intro hist hlen
    have hstep := recordHistory_eq_drop max_history h0 hist hlen c
    have hlen2 : (AsyncCommandManager.recordHistory max_history hist c).length ≤
        max_history := by
      rw [hstep, List.length_drop]
      simp only [List.length_append, List.length_cons, List.length_nil]
      omega
    have hfold : AsyncCommandManager.historyFold max_history hist (c :: t) =
        AsyncCommandManager.historyFold max_history
          (AsyncCommandManager.recordHistory max_history hist c) t := rfl
    rw [hfold, ih _ hlen2, hstep]
    have hjlen : hist.length + 1 - max_history ≤ (hist ++ [c]).length := by
      simp only [List.length_append, List.length_cons, List.length_nil]
      omega
    have hassoc : hist ++ [c] ++ t = hist ++ c :: t := by simp
    rw [List.length_drop, ← List.drop_append_of_le_length hjlen, List.drop_drop,
      hassoc]
    congr 1
    simp only [List.length_append, List.length_cons, List.length_nil]
    omega

/-- C9: starting from an empty history, after any sequence of commands
has reached terminal states the retained history is exactly the most
recent max_history of them in order: the oldest are evicted first and the
length never exceeds the capacity. -/
theorem C9_history_bound (max_history : Nat) (cmds : List CommandContext)
    (h0 : 0 < max_history) :
    AsyncCommandManager.historyFold max_history [] cmds =
      cmds.drop (cmds.length - max_history) ∧
    (AsyncCommandManager.historyFold max_history [] cmds).length ≤
      max_history := by
  have h := historyFold_eq_drop max_history h0 cmds [] (by simp)
  simp only [List.nil_append, List.length_nil, Nat.zero_add] at h
  refine ⟨h, ?_⟩
  rw [h, List.length_drop]
  omega

/-- C9 witness: with capacity 2 and three completed commands, the history
holds the last two commands and its length is within the bound. -/
theorem C9_history_bound_witness :
    0 < 2 ∧
    AsyncCommandManager.historyFold 2 []
        [⟨"a", false, 0, CommandState.completed, none, none⟩,
         ⟨"b", false, 0, CommandState.completed, none, none⟩,
         ⟨"c", false, 0, CommandState.failed, none, none⟩] =
      ([⟨"a", false, 0, CommandState.completed, none, none⟩,
        ⟨"b", false, 0, CommandState.completed, none, none⟩,
        ⟨"c", false, 0, CommandState.failed, none, none⟩] :
          List CommandContext).drop (3 - 2) ∧
    (AsyncCommandManager.historyFold 2 []
        [⟨"a", false, 0, CommandState.completed, none, none⟩,
         ⟨"b", false, 0, CommandState.completed, none, none⟩,
         ⟨"c", false, 0, CommandState.failed, none, none⟩]).length ≤ 2 := by
  refine ⟨by decide, ?_, ?_⟩
  · exact (C9_history_bound 2 _ (by decide)).1
  · exact (C9_history_bound 2 _ (by decide)).2

/-- C7: a mouse_move or left_click_drag request whose coordinate is
missing or not of length 2 raises ValueError before any OS interaction:
the trace is empty, total_calls and error_count grow by one, and the
success count and average duration are untouched. -/
theorem C7_invalid_parameters (st : ScaleState) (stats : ToolStats)
    (env : OSEnv) (duration : ℚ) (act : Option String)
    (coord : Option (List ℤ)) (txt : Option String)
    (hact : act = some "mouse_move" ∨ act = some "left_click_drag")
    (hcoord : coord.map List.length ≠ some 2) :
    _execute_tool st stats env duration ⟨act, coord, txt⟩ =
      ({ stats with total_calls := stats.total_calls + 1,
                    error_count := stats.error_count + 1 },
       [],
       Except.error (PyExc.valueError
         ("Invalid coordinate for " ++ act.getD "" ++ "."))) := by
  rcases hact with h | h <;> subst h <;>
    rcases coord with _ | l <;>
    simp only [_execute_tool] <;>
    simp only [Option.map_some, ne_eq, Option.some.injEq] at hcoord ⊢
  · rfl
  · rw [if_neg (by decide), if_neg (by decide), if_pos (by decide),
      if_pos (by simpa using hcoord)]
    rfl
  · rfl
  · rw [if_neg (by decide), if_neg (by decide), if_pos (by decide),
      if_pos (by simpa using hcoord)]
    rfl

/-- C7 witness: the scripted scenario with coordinate [10] on a
left_click_drag fails with the invalid coordinate ValueError, no OS
effect, and only the total and error counters incremented. -/
theorem C7_invalid_parameters_witness :
    ((some "left_click_drag" : Option String) = some "mouse_move" ∨
      (some "left_click_drag" : Option String) = some "left_click_drag") ∧
    ((some [(10 : ℤ)]).map List.length ≠ some 2) ∧
    _execute_tool ⟨true, true, 0, 0, 1920, 1080, 1366, 768⟩ ⟨3, 1, 4, 5/2⟩
        ⟨(7, 8), "imgdata"⟩ 1 ⟨some "left_click_drag", some [10], none⟩ =
      ({ (⟨3, 1, 4, 5/2⟩ : ToolStats) with
          total_calls := 4 + 1
          error_count := 1 + 1 },
       [],
       Except.error (PyExc.valueError
         ("Invalid coordinate for " ++
           (some "left_click_drag").getD "" ++ "."))) := by
  refine ⟨Or.inr rfl, by decide, ?_⟩
  exact C7_invalid_parameters ⟨true, true, 0, 0, 1920, 1080, 1366, 768⟩
    ⟨3, 1, 4, 5/2⟩ ⟨(7, 8), "imgdata"⟩ 1 (some "left_click_drag")
    (some [10]) none (Or.inr rfl) (by decide)

/-- C10: an empty or whitespace only command makes the controller yield
nothing, call the model zero times and execute zero tools; through the
Tank handler stream the manager then marks the command Completed with no
result text. -/
theorem C10_empty_command (st : CtrlState) (script : List Response)
    (command : String) (hcmd : pyStrip command = "")
    (ctx : CommandContext) (hres : ctx.result = none) :
    TankClaudeController.execute_command st script command =
      ⟨st, [], 0, 0, none⟩ ∧
    (AsyncCommandManager._execute_command ctx
        (TankHandler.execute_command
          (TankClaudeController.execute_command st script command))).1.state =
      CommandState.completed ∧
    (AsyncCommandManager._execute_command ctx
        (TankHandler.execute_command
          (TankClaudeController.execute_command st script command))).1.result =
      none := by
  have hrun : TankClaudeController.execute_command st script command =
      ⟨st, [], 0, 0, none⟩ := by
    rw [TankClaudeController.execute_command, if_pos hcmd]
  refine ⟨hrun, ?_, ?_⟩ <;>
    rw [hrun] <;>
    simp [TankHandler.execute_command, TankHandler.transformStream,
      AsyncCommandManager._execute_command, streamFold, hres]

/-- C10 witness: the whitespace command with a scripted response
available still yields nothing, calls nothing, and completes with no
result. -/
theorem C10_empty_command_witness :
    pyStrip "   " = "" ∧
    (⟨"   ", true, 0, CommandState.executing, none, none⟩ :
        CommandContext).result = none ∧
    TankClaudeController.execute_command ⟨false, [], 10⟩
        [Response.ok [SBlock.text "done"]] "   " =
      ⟨⟨false, [], 10⟩, [], 0, 0, none⟩ ∧
    (AsyncCommandManager._execute_command
        ⟨"   ", true, 0, CommandState.executing, none, none⟩
        (TankHandler.execute_command
          (TankClaudeController.execute_command ⟨false, [], 10⟩
            [Response.ok [SBlock.text "done"]] "   "))).1.state =
      CommandState.completed := by
  have h := C10_empty_command ⟨false, [], 10⟩ [Response.ok [SBlock.text "done"]]
    "   " (by decide) ⟨"   ", true, 0, CommandState.executing, none, none⟩ rfl
  exact ⟨by decide, rfl, h.1, h.2.1⟩

/-- C1: calling cancel_current while a command is Executing does not
perform the documented teardown. The CancelledError raised by
TankClaudeController.cancel_current escapes TankHandler (whose except
Exception clause does not catch a BaseException and re-raises anyway) and
aborts AsyncCommandManager.cancel_current at step (a): the exception
propagates to the caller, the execution task is never cancelled, the
command state is still Executing rather than Cancelled, and the callback
is never invoked. This contradicts the specified behaviour, which the
skipped lines 148-164 of command_manager.py were written to provide. -/
theorem C1_cancel_current_bug :
    (AsyncCommandManager.cancel_current mgrExec).2 =
      some (PyExc.cancelledError "Command cancelled by user") ∧
    ((AsyncCommandManager.cancel_current mgrExec).1.current_command.map
        CommandContext.state) = some CommandState.executing ∧
    (AsyncCommandManager.cancel_current mgrExec).1.callbackLog = [] ∧
    (AsyncCommandManager.cancel_current mgrExec).1.taskCancelRequested = false ∧
    (AsyncCommandManager.cancel_current mgrExec).1.handler.controller.cancelled =
      true := by
  decide

/-- C8: calling shutdown while a command is Executing sets the shutdown
flag but then the CancelledError escaping cancel_current aborts shutdown
before the drain loop: the queued command is neither dequeued nor marked
Cancelled, contradicting the claim that shutdown drains the queue and is
safe from any state. -/
theorem C8_shutdown_bug :
    (AsyncCommandManager.shutdown mgrShut).2 =
      some (PyExc.cancelledError "Command cancelled by user") ∧
    (AsyncCommandManager.shutdown mgrShut).1._shutdown = true ∧
    ((AsyncCommandManager.shutdown mgrShut).1.queue.map CommandContext.state) =
      [CommandState.queued] ∧
    (AsyncCommandManager.shutdown mgrShut).1.drained = [] := by
  decide

theorem pytrunc_bounds (q : ℚ) (b : ℤ) (h0 : 0 ≤ q) (hb : q ≤ (b : ℚ)) :
    0 ≤ pytrunc q ∧ pytrunc q ≤ b := by
  rw [pytrunc, if_neg (not_lt.mpr h0)]
  constructor
  · exact Int.le_floor.mpr (by exact_mod_cast h0)
  · calc ⌊q⌋ ≤ ⌊(b : ℚ)⌋ := Int.floor_le_floor hb
      _ = b := Int.floor_intCast b

theorem computerAxisBounds (r w b : ℤ) (hw : 1 ≤ w) (hb : 0 ≤ b)
    (h0 : 0 ≤ r) (hrw : r ≤ w) :
    0 ≤ pytrunc ((r : ℚ) / (w : ℚ) * (b : ℚ)) ∧
    pytrunc ((r : ℚ) / (w : ℚ) * (b : ℚ)) ≤ b := by
  have hwq : (0 : ℚ) < (w : ℚ) := by exact_mod_cast hw
  have h0q : (0 : ℚ) ≤ (r : ℚ) := by exact_mod_cast h0
  have hbq : (0 : ℚ) ≤ (b : ℚ) := by exact_mod_cast hb
  have hq0 : 0 ≤ (r : ℚ) / (w : ℚ) * (b : ℚ) :=
    mul_nonneg (div_nonneg h0q (le_of_lt hwq)) hbq
  have hdiv1 : (r : ℚ) / (w : ℚ) ≤ 1 :=
    (div_le_one hwq).mpr (by exact_mod_cast hrw)
  have hqb : (r : ℚ) / (w : ℚ) * (b : ℚ) ≤ (b : ℚ) :=
    mul_le_of_le_one_left hbq hdiv1
  exact pytrunc_bounds _ b hq0 hqb

/-- C5 counterexample: with scaling disabled the COMPUTER direction is
the identity on nonnegative inputs, so the input 5000 leaves the mapper
far above the logical width 1024: the claimed clamp to
[0, logical_dimension] fails. -/
theorem C5_clamping_cex :
    ¬ (0 ≤ (scale_coordinates stC5cex ScalingSource.computer 5000 600).1 ∧
       (scale_coordinates stC5cex ScalingSource.computer 5000 600).1 ≤
         stC5cex.base_width ∧
       0 ≤ (scale_coordinates stC5cex ScalingSource.computer 5000 600).2 ∧
       (scale_coordinates stC5cex ScalingSource.computer 5000 600).2 ≤
         stC5cex.base_height) := by
  decide

/-- C5 amended: outputs toward the OS (source API) are always clamped to
[offset, offset + real_dimension - 1] on each axis; outputs toward the
model (source COMPUTER) lie in [0, logical_dimension] whenever scaling is
enabled. With scaling disabled the COMPUTER direction only clamps
negative inputs to 0 and can exceed the logical dimension. -/
theorem C5_clamping_amended (st : ScaleState) (x y : ℤ)
    (hw : 1 ≤ st.screen_width) (hh : 1 ≤ st.screen_height)
    (hbw : 0 ≤ st.base_width) (hbh : 0 ≤ st.base_height) :
    (st.offset_x ≤ (scale_coordinates st ScalingSource.api x y).1 ∧
     (scale_coordinates st ScalingSource.api x y).1 ≤
       st.offset_x + st.screen_width - 1 ∧
     st.offset_y ≤ (scale_coordinates st ScalingSource.api x y).2 ∧
     (scale_coordinates st ScalingSource.api x y).2 ≤
       st.offset_y + st.screen_height - 1) ∧
    (st.enabled = true →
      0 ≤ (scale_coordinates st ScalingSource.computer x y).1 ∧
      (scale_coordinates st ScalingSource.computer x y).1 ≤ st.base_width ∧
      0 ≤ (scale_coordinates st ScalingSource.computer x y).2 ∧
      (scale_coordinates st ScalingSource.computer x y).2 ≤ st.base_height) := by
  constructor
  · cases hE : st.enabled
    · simp only [scale_coordinates, hE, Bool.not_false, if_true]
      refine ⟨?_, ?_, ?_, ?_⟩ <;> omega
    · simp only [scale_coordinates, hE, Bool.not_true, Bool.false_eq_true,
        if_false]
      refine ⟨?_, ?_, ?_, ?_⟩ <;>
        (generalize pytrunc _ = v) <;> omega
  · intro hE
    simp only [scale_coordinates, hE, Bool.not_true, Bool.false_eq_true,
      if_false]
    have hx := computerAxisBounds
      (if (if (if x < 0 then 0 else x) - st.offset_x < 0 then 0
          else (if x < 0 then 0 else x) - st.offset_x) > st.screen_width
        then st.screen_width
        else (if (if x < 0 then 0 else x) - st.offset_x < 0 then 0
          else (if x < 0 then 0 else x) - st.offset_x))
      st.screen_width st.base_width hw hbw
      (by split_ifs <;> omega) (by split_ifs <;> omega)
    have hy := computerAxisBounds
      (if (if (if y < 0 then 0 else y) - st.offset_y < 0 then 0
          else (if y < 0 then 0 else y) - st.offset_y) > st.screen_height
        then st.screen_height
        else (if (if y < 0 then 0 else y) - st.offset_y < 0 then 0
          else (if y < 0 then 0 else y) - st.offset_y))
      st.screen_height st.base_height hh hbh
      (by split_ifs <;> omega) (by split_ifs <;> omega)
    exact ⟨hx.1, hx.2, hy.1, hy.2⟩

/-- C5 witness: a concrete enabled state with offsets, a large x and a
negative y land inside both clamping ranges. -/
theorem C5_clamping_amended_witness :
    (1 : ℤ) ≤ (⟨true, true, 10, 20, 1920, 1080, 1366, 768⟩ :
        ScaleState).screen_width ∧
    (1 : ℤ) ≤ (⟨true, true, 10, 20, 1920, 1080, 1366, 768⟩ :
        ScaleState).screen_height ∧
    (0 : ℤ) ≤ (⟨true, true, 10, 20, 1920, 1080, 1366, 768⟩ :
        ScaleState).base_width ∧
    (0 : ℤ) ≤ (⟨true, true, 10, 20, 1920, 1080, 1366, 768⟩ :
        ScaleState).base_height ∧
    ((⟨true, true, 10, 20, 1920, 1080, 1366, 768⟩ : ScaleState).offset_x ≤
      (scale_coordinates ⟨true, true, 10, 20, 1920, 1080, 1366, 768⟩
        ScalingSource.api 5000 (-3)).1 ∧
     (scale_coordinates ⟨true, true, 10, 20, 1920, 1080, 1366, 768⟩
        ScalingSource.api 5000 (-3)).1 ≤ 10 + 1920 - 1 ∧
     (⟨true, true, 10, 20, 1920, 1080, 1366, 768⟩ : ScaleState).offset_y ≤
      (scale_coordinates ⟨true, true, 10, 20, 1920, 1080, 1366, 768⟩
        ScalingSource.api 5000 (-3)).2 ∧
     (scale_coordinates ⟨true, true, 10, 20, 1920, 1080, 1366, 768⟩
        ScalingSource.api 5000 (-3)).2 ≤ 20 + 1080 - 1) := by
  refine ⟨by decide, by decide, by decide, by decide, ?_⟩
  exact (C5_clamping_amended ⟨true, true, 10, 20, 1920, 1080, 1366, 768⟩
    5000 (-3) (by decide) (by decide) (by decide) (by decide)).1

theorem pytrunc_of_nonneg (q : ℚ) (hq : 0 ≤ q) : pytrunc q = ⌊q⌋ := by
  rw [pytrunc, if_neg (not_lt.mpr hq)]

theorem pytrunc_add_int_nonneg (q : ℚ) (n : ℤ) (hq : 0 ≤ q) (hn : 0 ≤ n) :
    pytrunc (q + (n : ℚ)) = ⌊q⌋ + n := by
  have h0 : (0 : ℚ) ≤ q + (n : ℚ) := by
    have : (0 : ℚ) ≤ (n : ℚ) := by exact_mod_cast hn
    linarith
  rw [pytrunc_of_nonneg _ h0, Int.floor_add_int]

theorem floorRoundTrip (t w b : ℤ) (hw : 1 ≤ w) (hb : 1 ≤ b) (ht : 0 ≤ t) :
    ⌊((⌊(t : ℚ) / (w : ℚ) * (b : ℚ)⌋ : ℚ)) / (b : ℚ) * (w : ℚ)⌋ ≤ t ∧
    t - ⌊((⌊(t : ℚ) / (w : ℚ) * (b : ℚ)⌋ : ℚ)) / (b : ℚ) * (w : ℚ)⌋ ≤
      ⌈(w : ℚ) / (b : ℚ)⌉ := by
  have hwq : (0 : ℚ) < (w : ℚ) := by exact_mod_cast hw
  have hbq : (0 : ℚ) < (b : ℚ) := by exact_mod_cast hb
  have hu_le : ((⌊(t : ℚ) / (w : ℚ) * (b : ℚ)⌋ : ℚ)) ≤
      (t : ℚ) / (w : ℚ) * (b : ℚ) := Int.floor_le _
  have hu_gt : (t : ℚ) / (w : ℚ) * (b : ℚ) - 1 <
      ((⌊(t : ℚ) / (w : ℚ) * (b : ℚ)⌋ : ℚ)) := Int.sub_one_lt_floor _
  have hid : ((t : ℚ) / (w : ℚ) * (b : ℚ)) / (b : ℚ) * (w : ℚ) = (t : ℚ) := by
    field_simp
    ring
  have hid2 : ((t : ℚ) / (w : ℚ) * (b : ℚ) - 1) / (b : ℚ) * (w : ℚ) =
      (t : ℚ) - (w : ℚ) / (b : ℚ) := by
    field_simp
    ring
  have hq2_le : ((⌊(t : ℚ) / (w : ℚ) * (b : ℚ)⌋ : ℚ)) / (b : ℚ) * (w : ℚ) ≤
      (t : ℚ) := by
    calc ((⌊(t : ℚ) / (w : ℚ) * (b : ℚ)⌋ : ℚ)) / (b : ℚ) * (w : ℚ) ≤
        ((t : ℚ) / (w : ℚ) * (b : ℚ)) / (b : ℚ) * (w : ℚ) := by
          apply mul_le_mul_of_nonneg_right _ (le_of_lt hwq)
          exact (div_le_div_iff_of_pos_right hbq).mpr hu_le
      _ = (t : ℚ) := hid
  have hq2_gt : (t : ℚ) - (w : ℚ) / (b : ℚ) <
      ((⌊(t : ℚ) / (w : ℚ) * (b : ℚ)⌋ : ℚ)) / (b : ℚ) * (w : ℚ) := by
    calc (t : ℚ) - (w : ℚ) / (b : ℚ) =
        ((t : ℚ) / (w : ℚ) * (b : ℚ) - 1) / (b : ℚ) * (w : ℚ) := hid2.symm
      _ < ((⌊(t : ℚ) / (w : ℚ) * (b : ℚ)⌋ : ℚ)) / (b : ℚ) * (w : ℚ) := by
          apply mul_lt_mul_of_pos_right _ hwq
          exact (div_lt_div_iff_of_pos_right hbq).mpr hu_gt
  constructor
  · have h1 : (⌊((⌊(t : ℚ) / (w : ℚ) * (b : ℚ)⌋ : ℚ)) / (b : ℚ) * (w : ℚ)⌋ : ℤ) ≤
        ⌊(t : ℚ)⌋ := Int.floor_le_floor hq2_le
    simpa using h1
  · have hceil : (w : ℚ) / (b : ℚ) ≤ ((⌈(w : ℚ) / (b : ℚ)⌉ : ℤ) : ℚ) :=
      Int.le_ceil _
    have hfl : ((⌊(t : ℚ) / (w : ℚ) * (b : ℚ)⌋ : ℚ)) / (b : ℚ) * (w : ℚ) - 1 <
        ((⌊((⌊(t : ℚ) / (w : ℚ) * (b : ℚ)⌋ : ℚ)) / (b : ℚ) * (w : ℚ)⌋ : ℤ) : ℚ) :=
      Int.sub_one_lt_floor _
    have hchain : ((t : ℤ) : ℚ) - ((⌈(w : ℚ) / (b : ℚ)⌉ : ℤ) : ℚ) - 1 <
        ((⌊((⌊(t : ℚ) / (w : ℚ) * (b : ℚ)⌋ : ℚ)) / (b : ℚ) * (w : ℚ)⌋ : ℤ) : ℚ) := by
      push_cast
      push_cast at hfl hceil
      linarith
    have hint : (t : ℤ) - ⌈(w : ℚ) / (b : ℚ)⌉ - 1 <
        ⌊((⌊(t : ℚ) / (w : ℚ) * (b : ℚ)⌋ : ℚ)) / (b : ℚ) * (w : ℚ)⌋ := by
      exact_mod_cast hchain
    omega

theorem apiAxis_eq (off w b v : ℤ) (hoff : 0 ≤ off) (hw : 1 ≤ w) (hb : 1 ≤ b)
    (hv : 0 ≤ v) :
    apiAxis off w b v = off + min ⌊(v : ℚ) / (b : ℚ) * (w : ℚ)⌋ (w - 1) ∧
    0 ≤ min ⌊(v : ℚ) / (b : ℚ) * (w : ℚ)⌋ (w - 1) ∧
    min ⌊(v : ℚ) / (b : ℚ) * (w : ℚ)⌋ (w - 1) ≤ w - 1 := by
  have hq : (0 : ℚ) ≤ (v : ℚ) / (b : ℚ) * (w : ℚ) := by
    apply mul_nonneg
    · apply div_nonneg
      · exact_mod_cast hv
      · exact_mod_cast le_trans (by omega) hb
    · exact_mod_cast le_trans (by omega) hw
  have hfl : 0 ≤ ⌊(v : ℚ) / (b : ℚ) * (w : ℚ)⌋ := Int.floor_nonneg.mpr hq
  rw [apiAxis, pytrunc_add_int_nonneg _ _ hq hoff]
  refine ⟨?_, by omega, by omega⟩
  generalize ⌊(v : ℚ) / (b : ℚ) * (w : ℚ)⌋ = f at hfl ⊢
  omega

theorem computerAxis_eq (off w b s : ℤ) (hoff : 0 ≤ off) (hw : 1 ≤ w)
    (hs_lo : off ≤ s) (hs_hi : s ≤ off + w - 1) :
    computerAxis off w b s = pytrunc (((s - off : ℤ) : ℚ) / (w : ℚ) * (b : ℚ)) := by
  rw [computerAxis]
  rw [if_neg (by omega : ¬ s < 0), if_neg (by omega : ¬ s - off < 0),
    if_neg (by omega : ¬ s - off > w)]

theorem axisRoundTrip (off w b v : ℤ) (hoff : 0 ≤ off) (hw : 1 ≤ w)
    (hb : 1 ≤ b) (hv : 0 ≤ v) :
    0 ≤ apiAxis off w b v -
        apiAxis off w b
          (if computerAxis off w b (apiAxis off w b v) < 0 then 0
           else computerAxis off w b (apiAxis off w b v)) ∧
    apiAxis off w b v -
        apiAxis off w b
          (if computerAxis off w b (apiAxis off w b v) < 0 then 0
           else computerAxis off w b (apiAxis off w b v)) ≤
      ⌈(w : ℚ) / (b : ℚ)⌉ := by
  obtain ⟨he1, ht0, htw⟩ := apiAxis_eq off w b v hoff hw hb hv
  set t := min ⌊(v : ℚ) / (b : ℚ) * (w : ℚ)⌋ (w - 1) with hts
  have hs1lo : off ≤ apiAxis off w b v := by omega
  have hs1hi : apiAxis off w b v ≤ off + w - 1 := by omega
  have he2 : computerAxis off w b (apiAxis off w b v) =
      pytrunc (((t : ℤ) : ℚ) / (w : ℚ) * (b : ℚ)) := by
    rw [computerAxis_eq off w b _ hoff hw hs1lo hs1hi, he1]
    norm_num
  have hqt : (0 : ℚ) ≤ (t : ℚ) / (w : ℚ) * (b : ℚ) := by
    apply mul_nonneg
    · apply div_nonneg
      · exact_mod_cast ht0
      · exact_mod_cast le_trans (by omega) hw
    · exact_mod_cast le_trans (by omega) hb
  have he2f : computerAxis off w b (apiAxis off w b v) =
      ⌊(t : ℚ) / (w : ℚ) * (b : ℚ)⌋ := by
    rw [he2, pytrunc_of_nonneg _ hqt]
  have hu0 : 0 ≤ computerAxis off w b (apiAxis off w b v) := by
    rw [he2f]
    exact Int.floor_nonneg.mpr hqt
  rw [if_neg (by omega)]
  obtain ⟨hcore1, hcore2⟩ := floorRoundTrip t w b hw hb ht0
  obtain ⟨he3, hs20, _⟩ := apiAxis_eq off w b
    (computerAxis off w b (apiAxis off w b v)) hoff hw hb hu0
  rw [he3, he2f] at *
  have hmin : min ⌊((⌊(t : ℚ) / (w : ℚ) * (b : ℚ)⌋ : ℚ)) / (b : ℚ) * (w : ℚ)⌋
      (w - 1) = ⌊((⌊(t : ℚ) / (w : ℚ) * (b : ℚ)⌋ : ℚ)) / (b : ℚ) * (w : ℚ)⌋ := by
    omega
  rw [he1, hmin]
  omega

theorem scale_api_enabled (st : ScaleState) (hE : st.enabled = true)
    (x y : ℤ) :
    scale_coordinates st ScalingSource.api x y =
      (apiAxis st.offset_x st.screen_width st.base_width
         (if x < 0 then 0 else x),
       apiAxis st.offset_y st.screen_height st.base_height
         (if y < 0 then 0 else y)) := by
  simp only [scale_coordinates, hE, Bool.not_true, Bool.false_eq_true,
    if_false, apiAxis]

theorem scale_computer_enabled (st : ScaleState) (hE : st.enabled = true)
    (x y : ℤ) :
    scale_coordinates st ScalingSource.computer x y =
      (computerAxis st.offset_x st.screen_width st.base_width x,
       computerAxis st.offset_y st.screen_height st.base_height y) := by
  simp only [scale_coordinates, hE, Bool.not_true, Bool.false_eq_true,
    if_false, computerAxis]

/-- C6 counterexample: with scaling enabled, matching 4:3 aspect ratios
(real 1920x1440, logical 1024x768) and zero offsets, the point (3, 5)
maps to screen (5, 9), but toScreen(toLogical(toScreen(3, 5))) = (3, 7):
both axes differ by 2 screen units, violating the claimed tolerance of
1. -/
theorem C6_roundtrip_cex :
    toScreen stC6cex (3, 5) = (5, 9) ∧
    toScreen stC6cex (toLogical stC6cex (toScreen stC6cex (3, 5))) = (3, 7) ∧
    ¬ (((toScreen stC6cex (3, 5)).1 -
          (toScreen stC6cex (toLogical stC6cex (toScreen stC6cex (3, 5)))).1).natAbs
          ≤ 1 ∧
       ((toScreen stC6cex (3, 5)).2 -
          (toScreen stC6cex (toLogical stC6cex (toScreen stC6cex (3, 5)))).2).natAbs
          ≤ 1) := by
  have h1 : toScreen stC6cex (3, 5) = (5, 9) := by
    show scale_coordinates stC6cex ScalingSource.api 3 5 = (5, 9)
    rw [scale_api_enabled stC6cex rfl 3 5]
    norm_num [stC6cex, apiAxis, pytrunc]
  have h2 : toLogical stC6cex (5, 9) = (2, 4) := by
    show scale_coordinates stC6cex ScalingSource.computer 5 9 = (2, 4)
    rw [scale_computer_enabled stC6cex rfl 5 9]
    norm_num [stC6cex, computerAxis, pytrunc]
  have h3 : toScreen stC6cex (2, 4) = (3, 7) := by
    show scale_coordinates stC6cex ScalingSource.api 2 4 = (3, 7)
    rw [scale_api_enabled stC6cex rfl 2 4]
    norm_num [stC6cex, apiAxis, pytrunc]
  refine ⟨h1, ?_, ?_⟩
  · rw [h1, h2, h3]
  · rw [h1, h2, h3]
    decide

/-- C6 amended: with scaling enabled, nonnegative monitor offsets and
positive dimensions, the round trip
toScreen(toLogical(toScreen(x, y))) for (x, y) within the logical bounds
returns a screen coordinate at most ceil(real_dimension /
logical_dimension) units below the original on each axis, and never
above it; the originally claimed tolerance of 1 unit is what fails. -/
theorem C6_roundtrip_amended (st : ScaleState) (x y : ℤ)
    (hE : st.enabled = true) (hAR : st.maintain_aspect = true)
    (hox : 0 ≤ st.offset_x) (hoy : 0 ≤ st.offset_y)
    (hw : 1 ≤ st.screen_width) (hh : 1 ≤ st.screen_height)
    (hbw : 1 ≤ st.base_width) (hbh : 1 ≤ st.base_height)
    (hx0 : 0 ≤ x) (hxb : x ≤ st.base_width)
    (hy0 : 0 ≤ y) (hyb : y ≤ st.base_height) :
    0 ≤ (toScreen st (x, y)).1 -
        (toScreen st (toLogical st (toScreen st (x, y)))).1 ∧
    (toScreen st (x, y)).1 -
        (toScreen st (toLogical st (toScreen st (x, y)))).1 ≤
      ⌈(st.screen_width : ℚ) / (st.base_width : ℚ)⌉ ∧
    0 ≤ (toScreen st (x, y)).2 -
        (toScreen st (toLogical st (toScreen st (x, y)))).2 ∧
    (toScreen st (x, y)).2 -
        (toScreen st (toLogical st (toScreen st (x, y)))).2 ≤
      ⌈(st.screen_height : ℚ) / (st.base_height : ℚ)⌉ := by
  have hxe : (if x < 0 then 0 else x) = x := if_neg (not_lt.mpr hx0)
  have hye : (if y < 0 then 0 else y) = y := if_neg (not_lt.mpr hy0)
  have e1 : toScreen st (x, y) =
      (apiAxis st.offset_x st.screen_width st.base_width x,
       apiAxis st.offset_y st.screen_height st.base_height y) := by
    have h := scale_api_enabled st hE x y
    rw [hxe, hye] at h
    exact h
  have e2 : toLogical st (toScreen st (x, y)) =
      (computerAxis st.offset_x st.screen_width st.base_width
         (apiAxis st.offset_x st.screen_width st.base_width x),
       computerAxis st.offset_y st.screen_height st.base_height
         (apiAxis st.offset_y st.screen_height st.base_height y)) := by
    rw [e1]
    exact scale_computer_enabled st hE _ _
  have e3 : toScreen st (toLogical st (toScreen st (x, y))) =
      (apiAxis st.offset_x st.screen_width st.base_width
         (if computerAxis st.offset_x st.screen_width st.base_width
              (apiAxis st.offset_x st.screen_width st.base_width x) < 0 then 0
          else computerAxis st.offset_x st.screen_width st.base_width
              (apiAxis st.offset_x st.screen_width st.base_width x)),
       apiAxis st.offset_y st.screen_height st.base_height
         (if computerAxis st.offset_y st.screen_height st.base_height
              (apiAxis st.offset_y st.screen_height st.base_height y) < 0 then 0
          else computerAxis st.offset_y st.screen_height st.base_height
              (apiAxis st.offset_y st.screen_height st.base_height y))) := by
    rw [e2]
    exact scale_api_enabled st hE _ _
  have hA := axisRoundTrip st.offset_x st.screen_width st.base_width x
    hox hw hbw hx0
  have hB := axisRoundTrip st.offset_y st.screen_height st.base_height y
    hoy hh hbh hy0
  rw [e3, e1]
  exact ⟨hA.1, hA.2, hB.1, hB.2⟩

/-- C6 witness: the amended bound instantiated at the counterexample
state and the point (3, 5): each axis loses at most
ceil(1920/1024) = ceil(1440/768) screen units and never gains. -/
theorem C6_roundtrip_amended_witness :
    stC6cex.enabled = true ∧ stC6cex.maintain_aspect = true ∧
    (0 : ℤ) ≤ stC6cex.offset_x ∧ (0 : ℤ) ≤ stC6cex.offset_y ∧
    (1 : ℤ) ≤ stC6cex.screen_width ∧ (1 : ℤ) ≤ stC6cex.screen_height ∧
    (1 : ℤ) ≤ stC6cex.base_width ∧ (1 : ℤ) ≤ stC6cex.base_height ∧
    (0 : ℤ) ≤ 3 ∧ (3 : ℤ) ≤ stC6cex.base_width ∧
    (0 : ℤ) ≤ 5 ∧ (5 : ℤ) ≤ stC6cex.base_height ∧
    (0 ≤ (toScreen stC6cex (3, 5)).1 -
        (toScreen stC6cex (toLogical stC6cex (toScreen stC6cex (3, 5)))).1 ∧
     (toScreen stC6cex (3, 5)).1 -
        (toScreen stC6cex (toLogical stC6cex (toScreen stC6cex (3, 5)))).1 ≤
      ⌈(stC6cex.screen_width : ℚ) / (stC6cex.base_width : ℚ)⌉ ∧
     0 ≤ (toScreen stC6cex (3, 5)).2 -
        (toScreen stC6cex (toLogical stC6cex (toScreen stC6cex (3, 5)))).2 ∧
     (toScreen stC6cex (3, 5)).2 -
        (toScreen stC6cex (toLogical stC6cex (toScreen stC6cex (3, 5)))).2 ≤
      ⌈(stC6cex.screen_height : ℚ) / (stC6cex.base_height : ℚ)⌉) := by
  refine ⟨rfl, rfl, by decide, by decide, by decide, by decide, by decide,
    by decide, by decide, by decide, by decide, by decide, ?_⟩
  exact C6_roundtrip_amended stC6cex 3 5 rfl rfl (by decide) (by decide)
    (by decide) (by decide) (by decide) (by decide) (by decide) (by decide)
    (by decide) (by decide)

theorem processBlocks_flags (blocks : List SBlock) (msgs : List Msg) :
    (processBlocks msgs blocks).hasTool = hasToolUseB blocks ∧
    (processBlocks msgs blocks).complete = hasCompletionText blocks := by
  induction blocks generalizing msgs with
  | nil => simp [processBlocks, hasToolUseB, hasCompletionText]
  | cons b rest ih =>
    cases b with
    | text t =>
      have h := ih (msgs ++ [⟨Role.assistant, [Item.text t]⟩])
      simp [processBlocks, hasToolUseB, hasCompletionText, SBlock.isToolUse,
        h.1, h.2]
    | toolUse id name input outcome =>
      cases outcome with
      | ok result =>
        have h := ih (msgs ++
          [⟨Role.assistant, [Item.toolUse id name input.inputRepr]⟩,
           ⟨Role.user, [Item.toolResult id result]⟩])
        simp [processBlocks, hasToolUseB, hasCompletionText,
          SBlock.isToolUse]
        simp [hasToolUseB, hasCompletionText] at h
        simp [h.1, h.2]
      | error e =>
        have h := ih (msgs ++
          [⟨Role.user, [Item.text ("Tool execution error: " ++ e)]⟩])
        simp [processBlocks, hasToolUseB, hasCompletionText,
          SBlock.isToolUse]
        simp [hasToolUseB, hasCompletionText] at h
        simp [h.1, h.2]

/-- C3: the message loop ends a turn through the normal break only when
the last processed response had no tool_use block and some text block in
it contained a completion phrase; when it force-terminates through the
hard ceiling history_size * 10, the warning is the last yielded chunk. In
particular a response containing a tool_use block never ends the turn
through the completion-phrase break, whatever its text blocks say. -/
theorem C3_termination_rule (history_size : Nat) (cancelled : Bool)
    (script : List Response) (msgs : List Msg) :
    ((_process_message_loop history_size cancelled script msgs).endKind =
        LoopEnd.normalEnd →
      ∃ blocks,
        (_process_message_loop history_size cancelled script msgs).lastResp =
            some blocks ∧
          hasToolUseB blocks = false ∧ hasCompletionText blocks = true) ∧
    ((_process_message_loop history_size cancelled script msgs).endKind =
        LoopEnd.ceilingEnd →
      (_process_message_loop history_size cancelled script msgs).yields.getLast?
        = some limitWarning) := by
  induction script generalizing msgs with
  | nil =>
    rw [_process_message_loop]
    by_cases hc : cancelled <;> simp [hc]
  | cons r rest ih =>
    rw [_process_message_loop]
    by_cases hc : cancelled
    · simp [hc]
    · have hcf : cancelled = false := by simpa using hc
      subst hcf
      cases r with
      | raiseExc m => simp
      | ok blocks =>
        simp only [Bool.false_eq_true, if_false]
        set msgs2 := loopPrelude msgs with hmsgs2
        have hflags := processBlocks_flags blocks msgs2
        by_cases h1 : (!(processBlocks msgs2 blocks).hasTool &&
            (processBlocks msgs2 blocks).complete) = true
        · rw [if_pos h1]
          refine ⟨fun _ => ⟨blocks, rfl, ?_, ?_⟩, fun hcontr => by simp at hcontr⟩
          · rw [← hflags.1]
            simp only [Bool.and_eq_true, Bool.not_eq_eq_eq_not, Bool.not_true] at h1
            exact h1.1
          · rw [← hflags.2]
            simp only [Bool.and_eq_true] at h1
            exact h1.2
        · rw [if_neg h1]
          by_cases h2 : (processBlocks msgs2 blocks).msgs.length >
              history_size * 10
          · rw [if_pos h2]
            refine ⟨fun hcontr => by simp at hcontr, fun _ => ?_⟩
            simp only [List.getLast?_concat]
          · rw [if_neg h2]
            have hrec := ih (processBlocks msgs2 blocks).msgs
            refine ⟨fun hend => ?_, fun hend => ?_⟩
            · obtain ⟨blocks2, hb1, hb2, hb3⟩ := hrec.1 (by simpa using hend)
              refine ⟨blocks2, ?_, hb2, hb3⟩
              simp only [hb1, Option.getD_some]
            · have hlast := hrec.2 (by simpa using hend)
              have hne : (_process_message_loop history_size false rest
                  (processBlocks msgs2 blocks).msgs).yields ≠ [] := by
                intro hnil
                rw [hnil] at hlast
                simp at hlast
              simp only [List.getLast?_append, hlast]
              rfl


/-- C3 witness: a scripted response with only the text Task accomplished
ends the turn normally, and the theorem reports that response as free of
tool_use blocks and flagged complete; the preceding response with a
tool_use block did not end the turn. -/
theorem C3_termination_rule_witness :
    (_process_message_loop 10 false
        [Response.ok [SBlock.text "I will click now",
           SBlock.toolUse "t1" "computer" ⟨"raw", some "left_click"⟩
             (Except.ok [RItem.rtext "Performed left_click"])],
         Response.ok [SBlock.text "Task accomplished"]] []).endKind =
      LoopEnd.normalEnd ∧
    (∃ blocks,
      (_process_message_loop 10 false
          [Response.ok [SBlock.text "I will click now",
             SBlock.toolUse "t1" "computer" ⟨"raw", some "left_click"⟩
               (Except.ok [RItem.rtext "Performed left_click"])],
           Response.ok [SBlock.text "Task accomplished"]] []).lastResp =
          some blocks ∧
        hasToolUseB blocks = false ∧ hasCompletionText blocks = true) := by
  refine ⟨by decide, ?_⟩
  exact (C3_termination_rule 10 false
    [Response.ok [SBlock.text "I will click now",
       SBlock.toolUse "t1" "computer" ⟨"raw", some "left_click"⟩
         (Except.ok [RItem.rtext "Performed left_click"])],
     Response.ok [SBlock.text "Task accomplished"]] []).1 (by decide)

end Thorus
